import Mathlib

/-!
Shallow embedding of the shuffle protocol (Rust/Anchor + Arcis MPC circuits)
and proofs about its specification claims.

Sources embedded:
  * `contract/encrypted-ixs/src/lib.rs` — the MPC circuit suite
    (`sub_balance`, `transfer`, `accumulate_order`, `calculate_payout`).
  * `contract/programs/shuffle_protocol/src/lib.rs` — the host callbacks
    (`sub_balance_callback`, `accumulate_order_callback`, `reveal_batch_callback`).
  * `contract/programs/shuffle_protocol/src/instructions/execute_swaps.rs`.
  * `contract/programs/shuffle_protocol/src/state/user.rs` — `UserProfile` accessors.

Modelling conventions:
  * Machine integers (u8/u64/u128) are `Nat` with explicit `% 2^w` at the points
    where the source wraps, casts, or could overflow.  Rust's
    `saturating_add`/`saturating_sub` become `min (x + y) (2^64 - 1)` and Nat
    truncated subtraction.  Arcis circuit arithmetic on secret-shared integers
    cannot signal overflow (both branches of every conditional execute), so
    additions wrap modulo the word size.
  * An encrypted value `Enc<Owner, T>` is a pair of an opaque owner tag and the
    plaintext payload; `owner.from_arcis(v)` is construction, `.to_arcis()` is
    projection.  Revealed circuit outputs appear as plain values.
  * A host callback is embedded as a pure function from the account states it
    touches to the account states as mutated by the handler body, together with
    the `Result` the body returns (`none` = `Ok(())`, `some e` = `Err(e)`).
  * An SPL token transfer succeeds iff the source account holds the amount and
    the destination does not overflow u64; on success it moves the amount.
-/

namespace Shuffle

/-- wrap modulus for u64 values -/
def u64Mod : Nat := 2 ^ 64

/-- wrap modulus for u8 values -/
def u8Mod : Nat := 2 ^ 8

/-- opaque tag identifying the key a ciphertext is encrypted under -/
abbrev Owner := Nat

/-- an encrypted value: owner tag plus the plaintext the cluster operates on -/
structure Enc (α : Type) where
  owner : Owner
  val : α
  deriving DecidableEq

-- =============================================================================
-- CIRCUIT SUITE (contract/encrypted-ixs/src/lib.rs)
-- =============================================================================

/-- circuit `sub_balance` (encrypted-ixs lines 74–99): reveals
`has_funds = balance >= update`; the returned balance is `balance - update`
when solvent and unchanged otherwise, re-encrypted under the update's owner. -/
def sub_balance (update_ctxt balance_ctxt : Enc Nat) : Bool × Enc Nat :=
  let update := update_ctxt.val
  let balance := balance_ctxt.val
  let has_funds : Bool := decide (update ≤ balance)
  let new_balance := if update ≤ balance then balance - update else balance
  (has_funds, ⟨update_ctxt.owner, new_balance⟩)

/-- circuit `transfer` (encrypted-ixs lines 105–140): when the sender holds the
amount, both balances move; otherwise both are returned unchanged.  No flag is
revealed.  The recipient addition is u64 arithmetic, hence the wrap. -/
def transfer (request_ctxt sender_ctxt recipient_ctxt : Enc Nat) :
    Enc Nat × Enc Nat :=
  let request := request_ctxt.val
  let sender := sender_ctxt.val
  let recipient := recipient_ctxt.val
  let has_funds := request ≤ sender
  let new_sender_balance := if has_funds then sender - request else sender
  let new_recipient_balance :=
    if has_funds then (recipient + request) % u64Mod else recipient
  (⟨sender_ctxt.owner, new_sender_balance⟩,
   ⟨recipient_ctxt.owner, new_recipient_balance⟩)

/-- encrypted order payload: pair id (0–5), direction (0 = A→B, 1 = B→A),
amount in base units -/
structure OrderInput where
  pair_id : Nat
  direction : Nat
  amount : Nat
  deriving DecidableEq

/-- per-pair accumulator totals inside the circuit batch state -/
structure PairTotals where
  total_a_in : Nat
  total_b_in : Nat
  deriving DecidableEq

/-- circuit batch state: totals for each of the six pairs -/
structure BatchState where
  pairs : Fin 6 → PairTotals

/-- count of pairs of a batch state with activity on either side
(encrypted-ixs lines 239–244) -/
def activePairsCircuit (batch : BatchState) : Nat :=
  (List.finRange 6).countP
    fun i => decide (0 < (batch.pairs i).total_a_in ∨ 0 < (batch.pairs i).total_b_in)

/-- circuit `accumulate_order` (encrypted-ixs lines 194–258): solvency check,
conditional deduction, slot-wise accumulation over all six pairs, and the
revealed `(has_funds, batch_ready)` pair.  `order_count` is the plaintext u8
count before this order; its increment is u8 arithmetic. -/
def accumulate_order (order_ctxt : Enc OrderInput) (balance_ctxt : Enc Nat)
    (batch_ctxt : Enc BatchState) (order_count : Nat) :
    Bool × Bool × Enc Nat × Enc BatchState :=
  let order := order_ctxt.val
  let balance := balance_ctxt.val
  let batch := batch_ctxt.val
  let has_funds := order.amount ≤ balance
  let new_balance := if has_funds then balance - order.amount else balance
  let new_pairs : Fin 6 → PairTotals := fun i =>
    if (i : Nat) = order.pair_id ∧ has_funds then
      if order.direction = 0 then
        ⟨((batch.pairs i).total_a_in + order.amount) % u64Mod,
         (batch.pairs i).total_b_in⟩
      else
        ⟨(batch.pairs i).total_a_in,
         ((batch.pairs i).total_b_in + order.amount) % u64Mod⟩
    else batch.pairs i
  let new_batch : BatchState := ⟨new_pairs⟩
  let new_order_count := if has_funds then (order_count + 1) % u8Mod else order_count
  let pair_count := activePairsCircuit new_batch
  let batch_ready := 8 ≤ new_order_count ∧ 2 ≤ pair_count
  (decide has_funds, decide batch_ready,
   ⟨balance_ctxt.owner, new_balance⟩, ⟨batch_ctxt.owner, new_batch⟩)

/-- circuit `calculate_payout` (encrypted-ixs lines 289–316): pro-rata payout
`(order.amount * final_pool_output) / total_input` computed in u128 and cast
back to u64, zero when `total_input` is zero; the new balance is
`current_balance + payout` in u64, re-encrypted under the order's owner, and
the payout is revealed. -/
def calculate_payout (order_ctxt : Enc OrderInput)
    (current_balance total_input final_pool_output : Nat) : Enc Nat × Nat :=
  let order_amount := order_ctxt.val.amount
  let payout :=
    if 0 < total_input then
      (order_amount * final_pool_output / total_input) % u64Mod
    else 0
  let new_balance := (current_balance + payout) % u64Mod
  (⟨order_ctxt.owner, new_balance⟩, payout)

-- =============================================================================
-- NETTING + PRICING ENGINE (reveal_batch_callback, lib.rs lines 445–536)
-- =============================================================================

/-- result row of a batch log (state/batch.rs `PairResult`) -/
structure PairResult where
  total_a_in : Nat
  total_b_in : Nat
  final_pool_a : Nat
  final_pool_b : Nat
  deriving DecidableEq

/-- the all-zero result row (`PairResult::default()`) -/
def PairResult.zero : PairResult := ⟨0, 0, 0, 0⟩

/-- `get_pair_tokens` (lib.rs lines 424–434): (base, quote) asset ids per pair -/
def get_pair_tokens (pair_id : Nat) : Nat × Nat :=
  match pair_id with
  | 0 => (1, 0)
  | 1 => (2, 0)
  | 2 => (3, 0)
  | 3 => (1, 2)
  | 4 => (1, 3)
  | 5 => (2, 3)
  | _ => (0, 0)

/-- hard-coded oracle price vector (lib.rs line 438), 6-decimal USDC units -/
def prices (asset_id : Nat) : Nat :=
  match asset_id with
  | 0 => 1000000
  | 1 => 250000000
  | 2 => 450000000
  | 3 => 180000000
  | _ => 0

/-- value of the A side expressed in quote units, u128 intermediate
(lib.rs lines 457–458) -/
def aValueInQuote (pair_id total_a_in : Nat) : Nat :=
  total_a_in * prices (get_pair_tokens pair_id).1 / prices (get_pair_tokens pair_id).2

/-- netting of a single pair (the loop body of `reveal_batch_callback`,
lib.rs lines 445–536).  An inactive pair keeps the zero row.  Surplus-side
arithmetic is u128; the casts back to u64 and the saturating u64 pool update
follow the source. -/
def netPair (pair_id total_a_in total_b_in : Nat) : PairResult :=
  if total_a_in = 0 ∧ total_b_in = 0 then PairResult.zero
  else
    let base := (get_pair_tokens pair_id).1
    let quote := (get_pair_tokens pair_id).2
    let a_value_in_quote := total_a_in * prices base / prices quote
    let b_value := total_b_in
    let fp : Nat × Nat :=
      if b_value < a_value_in_quote then
        let surplus_in_a := (a_value_in_quote - b_value) * prices quote / prices base
        let amount_out := surplus_in_a * 99 / 100
        let surplus_capped := min surplus_in_a total_a_in % u64Mod
        (total_a_in - surplus_capped,
         min (total_b_in + amount_out % u64Mod) (u64Mod - 1))
      else if a_value_in_quote < b_value then
        let surplus_in_b := b_value - a_value_in_quote
        let amount_out := surplus_in_b * 99 / 100
        let surplus_capped := min surplus_in_b total_b_in % u64Mod
        (min (total_a_in + amount_out % u64Mod) (u64Mod - 1),
         total_b_in - surplus_capped)
      else (total_a_in, total_b_in)
    ⟨total_a_in, total_b_in, fp.1, fp.2⟩

-- =============================================================================
-- ON-CHAIN STATE (state/user.rs, state/batch.rs)
-- =============================================================================

/-- pending order record embedded in a user profile (state/user.rs
`OrderTicket`); ciphertexts are opaque Nat tags -/
structure OrderTicket where
  batch_id : Nat
  pair_id : Nat
  direction : Nat
  encrypted_amount : Nat
  order_nonce : Nat
  deriving DecidableEq

/-- per-user account (state/user.rs `UserProfile`), restricted to the fields
the embedded handlers read or write -/
structure UserProfile where
  usdc_credit : Nat
  tsla_credit : Nat
  spy_credit : Nat
  aapl_credit : Nat
  pending_order : Option OrderTicket
  pending_asset_id : Nat
  pending_withdrawal_amount : Nat
  usdc_nonce : Nat
  tsla_nonce : Nat
  spy_nonce : Nat
  aapl_nonce : Nat
  order_count : Nat
  deriving DecidableEq

/-- `UserProfile::get_credit` (user.rs lines 142–150): unknown asset ids fall
back to the USDC slot -/
def UserProfile.get_credit (u : UserProfile) (asset_id : Nat) : Nat :=
  match asset_id with
  | 0 => u.usdc_credit
  | 1 => u.tsla_credit
  | 2 => u.spy_credit
  | 3 => u.aapl_credit
  | _ => u.usdc_credit

/-- `UserProfile::set_credit` (user.rs lines 153–161) -/
def UserProfile.set_credit (u : UserProfile) (asset_id : Nat) (balance : Nat) :
    UserProfile :=
  match asset_id with
  | 0 => { u with usdc_credit := balance }
  | 1 => { u with tsla_credit := balance }
  | 2 => { u with spy_credit := balance }
  | 3 => { u with aapl_credit := balance }
  | _ => { u with usdc_credit := balance }

/-- `UserProfile::get_nonce` (user.rs lines 164–172) -/
def UserProfile.get_nonce (u : UserProfile) (asset_id : Nat) : Nat :=
  match asset_id with
  | 0 => u.usdc_nonce
  | 1 => u.tsla_nonce
  | 2 => u.spy_nonce
  | 3 => u.aapl_nonce
  | _ => u.usdc_nonce

/-- `UserProfile::set_nonce` (user.rs lines 175–183) -/
def UserProfile.set_nonce (u : UserProfile) (asset_id : Nat) (nonce : Nat) :
    UserProfile :=
  match asset_id with
  | 0 => { u with usdc_nonce := nonce }
  | 1 => { u with tsla_nonce := nonce }
  | 2 => { u with spy_nonce := nonce }
  | 3 => { u with aapl_nonce := nonce }
  | _ => { u with usdc_nonce := nonce }

/-- batch accumulator account (state/batch.rs `BatchAccumulator`);
pair ciphertexts are opaque Nat tags, one `(a, b)` pair per slot -/
structure BatchAccumulator where
  batch_id : Nat
  order_count : Nat
  pair_states : Fin 6 → Nat × Nat
  mxe_nonce : Nat

/-- per-batch results account (state/batch.rs `BatchLog`) -/
structure BatchLog where
  batch_id : Nat
  results : Fin 6 → PairResult
  executed_at : Int
  swaps_executed : Bool

/-- error codes of the embedded handlers (errors.rs); `TokenTransferFailed`
stands for a failing SPL token CPI -/
inductive ErrorCode where
  | InvalidBatchId
  | SwapsAlreadyExecuted
  | InsufficientBalance
  | AbortedComputation
  | TokenTransferFailed
  deriving DecidableEq

/-- an SPL token transfer: moves `amount` iff the source holds it and the
destination does not overflow u64 -/
def splTransfer (source dest amount : Nat) : Option (Nat × Nat) :=
  if amount ≤ source ∧ dest + amount < u64Mod then
    some (source - amount, dest + amount)
  else none

-- =============================================================================
-- HOST CALLBACKS (lib.rs)
-- =============================================================================

/-- callback `sub_balance_callback` (lib.rs lines 1099–1165), as a function of
the MPC output `(has_funds, ciphertext, nonce)` and of the account states it
touches (user profile, vault token balance, recipient token balance).  Event
emission and the cluster-signature check are outside the embedding. -/
def sub_balance_callback (has_funds : Bool) (ciphertext nonce : Nat)
    (user : UserProfile) (vault recipient : Nat) :
    (UserProfile × Nat × Nat) × Option ErrorCode :=
  if ¬ has_funds then ((user, vault, recipient), some .InsufficientBalance)
  else
    let amount := user.pending_withdrawal_amount
    match splTransfer vault recipient amount with
    | none => ((user, vault, recipient), some .TokenTransferFailed)
    | some (vault', recipient') =>
      let asset_id := user.pending_asset_id
      let u1 := (user.set_credit asset_id ciphertext).set_nonce asset_id nonce
      (({ u1 with pending_withdrawal_amount := 0 }, vault', recipient'), none)

/-- callback `accumulate_order_callback` (lib.rs lines 252–358), as a function
of the MPC output and of the user profile and batch accumulator.  On
`has_funds = false` the handler clears `pending_order` and returns
`InsufficientBalance`; otherwise it installs the new balance ciphertext and
nonce, the twelve batch ciphertexts, the new mxe nonce, and increments the u8
`order_count`.  `batch_ready` only gates the `BatchReadyEvent` emission. -/
def accumulate_order_callback (has_funds : Bool)
    (balance_ciphertext balance_nonce : Nat)
    (batch_ciphertexts : Fin 6 → Nat × Nat) (batch_nonce : Nat)
    (user : UserProfile) (batch : BatchAccumulator) :
    (UserProfile × BatchAccumulator) × Option ErrorCode :=
  if ¬ has_funds then
    (({ user with pending_order := none }, batch), some .InsufficientBalance)
  else
    let asset_id := user.pending_asset_id
    let u1 := (user.set_credit asset_id balance_ciphertext).set_nonce
      asset_id balance_nonce
    let batch' := { batch with
      pair_states := batch_ciphertexts
      order_count := (batch.order_count + 1) % u8Mod
      mxe_nonce := batch_nonce }
    ((u1, batch'), none)

/-- callback `reveal_batch_callback` (lib.rs lines 385–560), as a function of
the revealed totals (one `(total_a_in, total_b_in)` pair per slot), the clock,
the freshly initialised batch log account, and the batch accumulator.  It nets
every pair, writes the results into the log unconditionally, and resets the
accumulator for the next batch. -/
def reveal_batch_callback (totals : Fin 6 → Nat × Nat) (now : Int)
    (log : BatchLog) (batch : BatchAccumulator) : BatchLog × BatchAccumulator :=
  let results : Fin 6 → PairResult :=
    fun p => netPair p (totals p).1 (totals p).2
  let log' := { log with
    batch_id := batch.batch_id
    results := results
    executed_at := now }
  let batch' := { batch with
    batch_id := (batch.batch_id + 1) % u64Mod
    order_count := 0 }
  (log', batch')

-- =============================================================================
-- EXECUTE SWAPS (instructions/execute_swaps.rs)
-- =============================================================================

/-- vault and reserve token balances for the four assets -/
structure TokenBook where
  vault_usdc : Nat
  vault_tsla : Nat
  vault_spy : Nat
  vault_aapl : Nat
  reserve_usdc : Nat
  reserve_tsla : Nat
  reserve_spy : Nat
  reserve_aapl : Nat
  deriving DecidableEq

/-- one vault↔reserve token movement issued by `execute_swaps` -/
structure TokenMove where
  asset : Nat
  amount : Nat
  toVault : Bool
  deriving DecidableEq

/-- `execute_vault_to_reserve_by_asset` (execute_swaps.rs lines 155–196);
an unknown asset id is a silent success, as in the source's `_ => Ok(())` -/
def execute_vault_to_reserve_by_asset (book : TokenBook) (asset_id amount : Nat) :
    Option TokenBook :=
  match asset_id with
  | 0 => (splTransfer book.vault_usdc book.reserve_usdc amount).map
      fun p => { book with vault_usdc := p.1, reserve_usdc := p.2 }
  | 1 => (splTransfer book.vault_tsla book.reserve_tsla amount).map
      fun p => { book with vault_tsla := p.1, reserve_tsla := p.2 }
  | 2 => (splTransfer book.vault_spy book.reserve_spy amount).map
      fun p => { book with vault_spy := p.1, reserve_spy := p.2 }
  | 3 => (splTransfer book.vault_aapl book.reserve_aapl amount).map
      fun p => { book with vault_aapl := p.1, reserve_aapl := p.2 }
  | _ => some book

/-- `execute_reserve_to_vault_by_asset` (execute_swaps.rs lines 199–240) -/
def execute_reserve_to_vault_by_asset (book : TokenBook) (asset_id amount : Nat) :
    Option TokenBook :=
  match asset_id with
  | 0 => (splTransfer book.reserve_usdc book.vault_usdc amount).map
      fun p => { book with reserve_usdc := p.1, vault_usdc := p.2 }
  | 1 => (splTransfer book.reserve_tsla book.vault_tsla amount).map
      fun p => { book with reserve_tsla := p.1, vault_tsla := p.2 }
  | 2 => (splTransfer book.reserve_spy book.vault_spy amount).map
      fun p => { book with reserve_spy := p.1, vault_spy := p.2 }
  | 3 => (splTransfer book.reserve_aapl book.vault_aapl amount).map
      fun p => { book with reserve_aapl := p.1, vault_aapl := p.2 }
  | _ => some book

/-- apply a single movement to the token book -/
def applyMove (book : TokenBook) (m : TokenMove) : Option TokenBook :=
  if m.toVault then execute_reserve_to_vault_by_asset book m.asset m.amount
  else execute_vault_to_reserve_by_asset book m.asset m.amount

/-- signed delta of the A side of a result row: `final_pool_a - total_a_in`
in i128 (execute_swaps.rs line 78) -/
def deltaA (r : PairResult) : Int := (r.final_pool_a : Int) - (r.total_a_in : Int)

/-- signed delta of the B side of a result row (execute_swaps.rs line 79) -/
def deltaB (r : PairResult) : Int := (r.final_pool_b : Int) - (r.total_b_in : Int)

/-- the sequence of token movements the `execute_swaps` loop issues
(execute_swaps.rs lines 63–141): inactive pairs are skipped; a positive delta
moves reserve→vault of that side's asset, a negative one vault→reserve -/
def transfersFor (results : Fin 6 → PairResult) : List TokenMove :=
  (List.finRange 6).flatMap fun p =>
    let r := results p
    if r.total_a_in = 0 ∧ r.total_b_in = 0 then []
    else
      let base := (get_pair_tokens (p : Nat)).1
      let quote := (get_pair_tokens (p : Nat)).2
      (if 0 < deltaA r then [⟨base, (deltaA r).toNat, true⟩]
       else if deltaA r < 0 then [⟨base, (-(deltaA r)).toNat, false⟩] else [])
      ++
      (if 0 < deltaB r then [⟨quote, (deltaB r).toNat, true⟩]
       else if deltaB r < 0 then [⟨quote, (-(deltaB r)).toNat, false⟩] else [])

/-- apply the movements in order; a failing transfer stops the loop, leaving
the movements already applied in place and returning the error -/
def applyMoves (book : TokenBook) : List TokenMove → TokenBook × Option ErrorCode
  | [] => (book, none)
  | m :: ms =>
    match applyMove book m with
    | some b' => applyMoves b' ms
    | none => (book, some .TokenTransferFailed)

/-- instruction handler `execute_swaps` (execute_swaps.rs lines 32–152):
batch-id check, idempotency latch, the per-pair transfers, and the final
`swaps_executed := true`. -/
def execute_swaps (batch_id : Nat) (log : BatchLog) (book : TokenBook) :
    (BatchLog × TokenBook) × Option ErrorCode :=
  if log.batch_id ≠ batch_id then ((log, book), some .InvalidBatchId)
  else if log.swaps_executed then ((log, book), some .SwapsAlreadyExecuted)
  else
    match applyMoves book (transfersFor log.results) with
    | (book', none) => (({ log with swaps_executed := true }, book'), none)
    | (book', some e) => ((log, book'), some e)

/-- count of pairs whose revealed totals show activity on either side (the
admission criterion the spec states for batch execution) -/
def activePairsTotals (totals : Fin 6 → Nat × Nat) : Nat :=
  (List.finRange 6).countP
    fun p => decide (0 < (totals p).1 ∨ 0 < (totals p).2)

-- =============================================================================
-- THEOREMS
-- =============================================================================

/-- C6: the `sub_balance` circuit reveals `has_funds = (balance ≥ update)`,
returns the encrypted balance `balance − update` when solvent and the
unchanged balance otherwise, and the balance output stays encrypted (it is a
ciphertext under the update's Shared owner; only the boolean is revealed). -/
theorem sub_balance_spec (update_ctxt balance_ctxt : Enc Nat) :
    (sub_balance update_ctxt balance_ctxt).1
        = decide (update_ctxt.val ≤ balance_ctxt.val)
    ∧ (sub_balance update_ctxt balance_ctxt).2.val
        = (if update_ctxt.val ≤ balance_ctxt.val
           then balance_ctxt.val - update_ctxt.val else balance_ctxt.val)
    ∧ (sub_balance update_ctxt balance_ctxt).2.owner = update_ctxt.owner :=
  ⟨rfl, rfl, rfl⟩

/-- C7 counterexample: with sender balance 1, amount 1 and recipient balance
`2^64 − 1`, the sender is solvent but the circuit's u64 recipient addition
wraps to 0, not to `(2^64 − 1) + 1` as the claim's plain sum states. -/
theorem transfer_wrap_cex :
    (1 : Nat) ≤ 1
    ∧ (transfer ⟨0, 1⟩ ⟨1, 1⟩ ⟨2, u64Mod - 1⟩).2.val = 0
    ∧ (transfer ⟨0, 1⟩ ⟨1, 1⟩ ⟨2, u64Mod - 1⟩).2.val ≠ (u64Mod - 1) + 1 := by
  refine ⟨by decide, by decide, by decide⟩

/-- C7 amended: when the sender holds the amount the circuit returns
`sender − amount` and `(recipient + amount) mod 2^64` (the recipient update is
u64 arithmetic and wraps); otherwise both balances are returned unchanged, with
no revealed flag; each output keeps its own party's Shared owner. -/
theorem transfer_spec (request_ctxt sender_ctxt recipient_ctxt : Enc Nat) :
    (transfer request_ctxt sender_ctxt recipient_ctxt).1.val
        = (if request_ctxt.val ≤ sender_ctxt.val
           then sender_ctxt.val - request_ctxt.val else sender_ctxt.val)
    ∧ (transfer request_ctxt sender_ctxt recipient_ctxt).2.val
        = (if request_ctxt.val ≤ sender_ctxt.val
           then (recipient_ctxt.val + request_ctxt.val) % u64Mod
           else recipient_ctxt.val)
    ∧ (transfer request_ctxt sender_ctxt recipient_ctxt).1.owner
        = sender_ctxt.owner
    ∧ (transfer request_ctxt sender_ctxt recipient_ctxt).2.owner
        = recipient_ctxt.owner :=
  ⟨rfl, rfl, rfl, rfl⟩

/-- C4 counterexample: with order amount `2^63`, pool output 4 and total input
1 the u128 quotient is `2^65`; the circuit's cast back to u64 truncates the
revealed payout to 0, not `2^65` as the claim's exact quotient states. -/
theorem calculate_payout_truncation_cex :
    (calculate_payout ⟨0, ⟨0, 0, 2 ^ 63⟩⟩ 0 1 4).2 = 0
    ∧ (calculate_payout ⟨0, ⟨0, 0, 2 ^ 63⟩⟩ 0 1 4).2 ≠ 2 ^ 63 * 4 / 1 := by
  refine ⟨by decide, by decide⟩

/-- C4 amended: the revealed payout is
`((order.amount · final_pool_output) / total_input) mod 2^64` — the u128
quotient truncated by the cast back to u64 — when `total_input > 0`, and 0
when `total_input = 0`, never an error; the returned balance is
`(current_balance + payout) mod 2^64` re-encrypted under the order's owner. -/
theorem calculate_payout_spec (order_ctxt : Enc OrderInput)
    (current_balance total_input final_pool_output : Nat) :
    (calculate_payout order_ctxt current_balance total_input final_pool_output).2
        = (if 0 < total_input
           then order_ctxt.val.amount * final_pool_output / total_input % u64Mod
           else 0)
    ∧ (calculate_payout order_ctxt current_balance total_input final_pool_output).1.val
        = (current_balance +
            (calculate_payout order_ctxt current_balance total_input
              final_pool_output).2) % u64Mod
    ∧ (calculate_payout order_ctxt current_balance total_input final_pool_output).1.owner
        = order_ctxt.owner :=
  ⟨rfl, rfl, rfl⟩

/-- C5 counterexample: an order of amount 1 on pair 0 against balance 5 (so
`has_funds` holds) with plaintext `order_count = 255` and a batch that has two
active pairs after accumulation: the circuit's u8 increment wraps 255 + 1 to
0, so it reveals `batch_ready = false`, although the claim's plain sum
`order_count + has_funds = 256 ≥ 8` and the two active pairs would make the
claimed formula true. -/
theorem accumulate_order_wrap_cex :
    (accumulate_order ⟨0, ⟨0, 0, 1⟩⟩ ⟨0, 5⟩
        ⟨0, ⟨fun i => if (i : Nat) < 2 then ⟨1, 0⟩ else ⟨0, 0⟩⟩⟩ 255).2.1 = false
    ∧ 8 ≤ 255 + 1
    ∧ 2 ≤ activePairsCircuit
        (accumulate_order ⟨0, ⟨0, 0, 1⟩⟩ ⟨0, 5⟩
          ⟨0, ⟨fun i => if (i : Nat) < 2 then ⟨1, 0⟩ else ⟨0, 0⟩⟩⟩ 255).2.2.2.val := by
  refine ⟨by decide, by decide, by decide⟩

/-- C5 amended: `accumulate_order` deducts the amount iff the balance covers
it; iterating all six slots it adds the amount (u64 arithmetic, modulo 2^64)
to slot i's `total_a_in` when the direction is 0 and to `total_b_in`
otherwise, exactly when i equals the order's pair id and the balance was
sufficient; and it reveals
`batch_ready = ((order_count + has_funds) mod 256 ≥ 8 ∧ active pairs of the
new batch ≥ 2)` — the increment of the plaintext u8 counter wraps modulo 256.
The balance output keeps the balance's Shared owner and the batch output the
protocol owner. -/
theorem accumulate_order_spec (order_ctxt : Enc OrderInput)
    (balance_ctxt : Enc Nat) (batch_ctxt : Enc BatchState) (order_count : Nat) :
    (accumulate_order order_ctxt balance_ctxt batch_ctxt order_count).1
        = decide (order_ctxt.val.amount ≤ balance_ctxt.val)
    ∧ (accumulate_order order_ctxt balance_ctxt batch_ctxt order_count).2.2.1.val
        = (if order_ctxt.val.amount ≤ balance_ctxt.val
           then balance_ctxt.val - order_ctxt.val.amount else balance_ctxt.val)
    ∧ (∀ i : Fin 6,
        (((accumulate_order order_ctxt balance_ctxt batch_ctxt
              order_count).2.2.2.val.pairs i).total_a_in
          = (if (i : Nat) = order_ctxt.val.pair_id
                ∧ order_ctxt.val.amount ≤ balance_ctxt.val
                ∧ order_ctxt.val.direction = 0
             then ((batch_ctxt.val.pairs i).total_a_in + order_ctxt.val.amount)
                    % u64Mod
             else (batch_ctxt.val.pairs i).total_a_in))
        ∧ (((accumulate_order order_ctxt balance_ctxt batch_ctxt
              order_count).2.2.2.val.pairs i).total_b_in
          = (if (i : Nat) = order_ctxt.val.pair_id
                ∧ order_ctxt.val.amount ≤ balance_ctxt.val
                ∧ ¬ order_ctxt.val.direction = 0
             then ((batch_ctxt.val.pairs i).total_b_in + order_ctxt.val.amount)
                    % u64Mod
             else (batch_ctxt.val.pairs i).total_b_in)))
    ∧ (accumulate_order order_ctxt balance_ctxt batch_ctxt order_count).2.1
        = decide
            (8 ≤ (if order_ctxt.val.amount ≤ balance_ctxt.val
                  then (order_count + 1) % u8Mod else order_count)
             ∧ 2 ≤ activePairsCircuit
                 (accumulate_order order_ctxt balance_ctxt batch_ctxt
                   order_count).2.2.2.val)
    ∧ (accumulate_order order_ctxt balance_ctxt batch_ctxt order_count).2.2.1.owner
        = balance_ctxt.owner
    ∧ (accumulate_order order_ctxt balance_ctxt batch_ctxt order_count).2.2.2.owner
        = batch_ctxt.owner := by
  refine ⟨rfl, rfl, ?_, rfl, rfl, rfl⟩
  intro i
  constructor
  · show (if (i : Nat) = order_ctxt.val.pair_id
            ∧ order_ctxt.val.amount ≤ balance_ctxt.val then
          if order_ctxt.val.direction = 0 then
            (⟨((batch_ctxt.val.pairs i).total_a_in + order_ctxt.val.amount)
                % u64Mod, (batch_ctxt.val.pairs i).total_b_in⟩ : PairTotals)
          else ⟨(batch_ctxt.val.pairs i).total_a_in,
            ((batch_ctxt.val.pairs i).total_b_in + order_ctxt.val.amount)
              % u64Mod⟩
          else batch_ctxt.val.pairs i).total_a_in = _
    by_cases h1 : (i : Nat) = order_ctxt.val.pair_id
        ∧ order_ctxt.val.amount ≤ balance_ctxt.val
    · by_cases h2 : order_ctxt.val.direction = 0
      · rw [if_pos h1, if_pos h2, if_pos ⟨h1.1, h1.2, h2⟩]
      · rw [if_pos h1, if_neg h2, if_neg (fun h => h2 h.2.2)]
    · rw [if_neg h1, if_neg (fun h => h1 ⟨h.1, h.2.1⟩)]
  · show (if (i : Nat) = order_ctxt.val.pair_id
            ∧ order_ctxt.val.amount ≤ balance_ctxt.val then
          if order_ctxt.val.direction = 0 then
            (⟨((batch_ctxt.val.pairs i).total_a_in + order_ctxt.val.amount)
                % u64Mod, (batch_ctxt.val.pairs i).total_b_in⟩ : PairTotals)
          else ⟨(batch_ctxt.val.pairs i).total_a_in,
            ((batch_ctxt.val.pairs i).total_b_in + order_ctxt.val.amount)
              % u64Mod⟩
          else batch_ctxt.val.pairs i).total_b_in = _
    by_cases h1 : (i : Nat) = order_ctxt.val.pair_id
        ∧ order_ctxt.val.amount ≤ balance_ctxt.val
    · by_cases h2 : order_ctxt.val.direction = 0
      · rw [if_pos h1, if_pos h2, if_neg (fun h => h.2.2 h2)]
      · rw [if_pos h1, if_neg h2, if_pos ⟨h1.1, h1.2, h2⟩]
    · rw [if_neg h1, if_neg (fun h => h1 ⟨h.1, h.2.1⟩)]

/-- the 1% slippage reduction never exceeds the surplus it is taken from -/
lemma mul99div100_le (s : Nat) : s * 99 / 100 ≤ s := by
  omega

/-- the surplus converted back to base units never exceeds the A-side total:
`a_in_quote = a·pb/pq` floors, so `(a_in_quote − b)·pq/pb ≤ a` -/
lemma surplus_le_total (pb pq a b : Nat) (hpb : 0 < pb) :
    (a * pb / pq - b) * pq / pb ≤ a := by
  have h1 : (a * pb / pq - b) * pq ≤ a * pb :=
    le_trans (Nat.mul_le_mul_right _ (Nat.sub_le _ _)) (Nat.div_mul_le_self _ _)
  calc (a * pb / pq - b) * pq / pb ≤ a * pb / pb := Nat.div_le_div_right h1
    _ = a := Nat.mul_div_left a hpb

/-- every pair's base asset has a positive hard-coded price -/
lemma prices_base_pos (pair_id : Nat) : 0 < prices (get_pair_tokens pair_id).1 := by
  rcases pair_id with _ | _ | _ | _ | _ | _ | n
  · decide
  · decide
  · decide
  · decide
  · decide
  · decide
  · show (0 : Nat) < 1000000
    decide

/-- C3 counterexample: pair 0 with `total_a_in = 2^63` and
`total_b_in = 2^64 − 1` is an A-surplus pair; the code's `saturating_add`
caps `final_pool_b` at `2^64 − 1`, which differs from the claim's plain sum
`total_b_in + 99·surplus_in_a/100`. -/
theorem netPair_saturation_cex :
    ((2 ^ 64 - 1 : Nat) < aValueInQuote 0 (2 ^ 63))
    ∧ (netPair 0 (2 ^ 63) (2 ^ 64 - 1)).final_pool_b = u64Mod - 1
    ∧ (netPair 0 (2 ^ 63) (2 ^ 64 - 1)).final_pool_b
        ≠ (2 ^ 64 - 1) +
            ((aValueInQuote 0 (2 ^ 63) - (2 ^ 64 - 1))
                * prices (get_pair_tokens 0).2 / prices (get_pair_tokens 0).1)
              * 99 / 100 := by
  refine ⟨by decide, by decide, by decide⟩

/-- C3 amended: for u64 totals, an inactive pair keeps the zero result row;
an A-surplus pair (`total_b_in < a_in_quote`) gets
`surplus_in_a = (a_in_quote − total_b_in)·price[quote]/price[base]`,
`final_pool_a = total_a_in − min(surplus_in_a, total_a_in)` and
`final_pool_b = total_b_in + 99·surplus_in_a/100` saturated at `2^64 − 1`;
symmetrically a B-surplus pair uses `surplus_in_b = total_b_in − a_in_quote`
(already in quote units) with the A-side addition saturated; an exactly
balanced pair keeps its totals. -/
theorem netPair_spec (pair_id total_a_in total_b_in : Nat)
    (ha : total_a_in < u64Mod) (hb : total_b_in < u64Mod) :
    netPair pair_id total_a_in total_b_in
      = if total_a_in = 0 ∧ total_b_in = 0 then PairResult.zero
        else if total_b_in < aValueInQuote pair_id total_a_in then
          ⟨total_a_in, total_b_in,
           total_a_in -
             min ((aValueInQuote pair_id total_a_in - total_b_in)
               * prices (get_pair_tokens pair_id).2
               / prices (get_pair_tokens pair_id).1) total_a_in,
           min (total_b_in +
             ((aValueInQuote pair_id total_a_in - total_b_in)
               * prices (get_pair_tokens pair_id).2
               / prices (get_pair_tokens pair_id).1) * 99 / 100) (u64Mod - 1)⟩
        else if aValueInQuote pair_id total_a_in < total_b_in then
          ⟨total_a_in, total_b_in,
           min (total_a_in +
             (total_b_in - aValueInQuote pair_id total_a_in) * 99 / 100)
             (u64Mod - 1),
           total_b_in -
             min (total_b_in - aValueInQuote pair_id total_a_in) total_b_in⟩
        else ⟨total_a_in, total_b_in, total_a_in, total_b_in⟩ := by
  simp only [netPair, aValueInQuote]
  split_ifs with h0 h1 h2
  · rfl
  · have hsa : (total_a_in * prices (get_pair_tokens pair_id).1
        / prices (get_pair_tokens pair_id).2 - total_b_in)
        * prices (get_pair_tokens pair_id).2
        / prices (get_pair_tokens pair_id).1 ≤ total_a_in :=
      surplus_le_total _ _ _ _ (prices_base_pos pair_id)
    rw [Nat.mod_eq_of_lt (lt_of_le_of_lt (min_le_right _ _) ha),
        Nat.mod_eq_of_lt (lt_of_le_of_lt (le_trans (mul99div100_le _) hsa) ha)]
  · rw [Nat.mod_eq_of_lt (lt_of_le_of_lt (min_le_right _ _) hb),
        Nat.mod_eq_of_lt
          (lt_of_le_of_lt (le_trans (mul99div100_le _) (Nat.sub_le _ _)) hb)]
  · rfl

/-- C3 witness: the amended statement applied to the spec's scenario-5 pair
(total_a_in = 3·10^9 units TSLA, total_b_in = 10^9 units USDC on pair 0),
evaluating the netting result concretely. -/
theorem netPair_spec_witness :
    netPair 0 3000000000 1000000000
      = ⟨3000000000, 1000000000, 4000000, 3966040000⟩ :=
  netPair_spec 0 3000000000 1000000000 (by decide) (by decide)

/-- reading the slot just written returns the new ciphertext, for every asset
id (ids above 3 both read and write the USDC slot) -/
lemma get_credit_set_credit (u : UserProfile) (a v : Nat) :
    (u.set_credit a v).get_credit a = v := by
  rcases a with _ | _ | _ | _ | a <;> rfl

/-- reading the nonce slot just written returns the new nonce -/
lemma get_nonce_set_nonce (u : UserProfile) (a n : Nat) :
    (u.set_nonce a n).get_nonce a = n := by
  rcases a with _ | _ | _ | _ | a <;> rfl

/-- writing a nonce never changes any credit slot -/
lemma get_credit_set_nonce (u : UserProfile) (a n b : Nat) :
    (u.set_nonce a n).get_credit b = u.get_credit b := by
  rcases a with _ | _ | _ | _ | a <;> rcases b with _ | _ | _ | _ | b <;> rfl

/-- clearing the pending withdrawal amount changes no credit slot -/
lemma get_credit_clear_pwa (u : UserProfile) (b : Nat) :
    ({ u with pending_withdrawal_amount := 0 } : UserProfile).get_credit b
      = u.get_credit b := by
  rcases b with _ | _ | _ | _ | b <;> rfl

/-- clearing the pending withdrawal amount changes no nonce slot -/
lemma get_nonce_clear_pwa (u : UserProfile) (b : Nat) :
    ({ u with pending_withdrawal_amount := 0 } : UserProfile).get_nonce b
      = u.get_nonce b := by
  rcases b with _ | _ | _ | _ | b <;> rfl

/-- C1: in `sub_balance_callback`, a revealed `has_funds = false` makes the
callback fail with `InsufficientBalance`, moving no tokens and leaving the
user's stored ciphertext, its nonce, the vault and the recipient unchanged;
with `has_funds = true` (and a vault able to honour the SPL transfer) it moves
exactly the stored `pending_withdrawal_amount` from the vault to the
recipient, installs the new ciphertext and nonce for the pending asset, and
clears `pending_withdrawal_amount` to 0. -/
theorem sub_balance_callback_spec (has_funds : Bool) (ct nonce : Nat)
    (user : UserProfile) (vault recipient : Nat) :
    (has_funds = false →
      sub_balance_callback has_funds ct nonce user vault recipient
        = ((user, vault, recipient), some ErrorCode.InsufficientBalance))
    ∧ (has_funds = true →
       user.pending_withdrawal_amount ≤ vault →
       recipient + user.pending_withdrawal_amount < u64Mod →
       (sub_balance_callback has_funds ct nonce user vault recipient).2 = none
       ∧ (sub_balance_callback has_funds ct nonce user vault recipient).1.2.1
           = vault - user.pending_withdrawal_amount
       ∧ (sub_balance_callback has_funds ct nonce user vault recipient).1.2.2
           = recipient + user.pending_withdrawal_amount
       ∧ (sub_balance_callback has_funds ct nonce user vault
            recipient).1.1.get_credit user.pending_asset_id = ct
       ∧ (sub_balance_callback has_funds ct nonce user vault
            recipient).1.1.get_nonce user.pending_asset_id = nonce
       ∧ (sub_balance_callback has_funds ct nonce user vault
            recipient).1.1.pending_withdrawal_amount = 0) := by
  constructor
  · intro h
    subst h
    rfl
  · intro h hv hr
    subst h
    have hsp : splTransfer vault recipient user.pending_withdrawal_amount
        = some (vault - user.pending_withdrawal_amount,
                recipient + user.pending_withdrawal_amount) := by
      unfold splTransfer
      rw [if_pos ⟨hv, hr⟩]
    have hred : sub_balance_callback true ct nonce user vault recipient
        = (({ (user.set_credit user.pending_asset_id ct).set_nonce
                user.pending_asset_id nonce
              with pending_withdrawal_amount := 0 },
            vault - user.pending_withdrawal_amount,
            recipient + user.pending_withdrawal_amount), none) := by
      simp only [sub_balance_callback, hsp]
      rw [if_neg (not_not_intro trivial)]
    rw [hred]
    refine ⟨rfl, rfl, rfl, ?_, ?_, rfl⟩
    · rw [get_credit_clear_pwa, get_credit_set_nonce, get_credit_set_credit]
    · rw [get_nonce_clear_pwa, get_nonce_set_nonce]

/-- C1 witness: both branches evaluated concretely — an insolvent callback on
a user with pending withdrawal 5 changes nothing and errors, and a solvent one
moves the 5 tokens and installs ciphertext 42 and nonce 43 for asset 1. -/
theorem sub_balance_callback_spec_witness :
    (sub_balance_callback false 42 43
        ⟨10, 11, 12, 13, none, 1, 5, 20, 21, 22, 23, 0⟩ 100 50
      = ((⟨10, 11, 12, 13, none, 1, 5, 20, 21, 22, 23, 0⟩, 100, 50),
         some ErrorCode.InsufficientBalance))
    ∧ ((sub_balance_callback true 42 43
          ⟨10, 11, 12, 13, none, 1, 5, 20, 21, 22, 23, 0⟩ 100 50).1.2.1 = 95
       ∧ (sub_balance_callback true 42 43
            ⟨10, 11, 12, 13, none, 1, 5, 20, 21, 22, 23, 0⟩ 100 50).1.2.2 = 55
       ∧ (sub_balance_callback true 42 43
            ⟨10, 11, 12, 13, none, 1, 5, 20, 21, 22, 23, 0⟩ 100
            50).1.1.get_credit 1 = 42) :=
  ⟨(sub_balance_callback_spec false 42 43 _ 100 50).1 rfl,
   ((sub_balance_callback_spec true 42 43 _ 100 50).2 rfl (by decide)
      (by decide)).2.1,
   ((sub_balance_callback_spec true 42 43 _ 100 50).2 rfl (by decide)
      (by decide)).2.2.1,
   ((sub_balance_callback_spec true 42 43 _ 100 50).2 rfl (by decide)
      (by decide)).2.2.2.1⟩

/-- C9: an `accumulate_order_callback` with revealed `has_funds = false`
clears the user's `pending_order` and returns `InsufficientBalance`, leaving
every other user field (balances and nonces included) and the whole batch
accumulator untouched. -/
theorem accumulate_order_callback_insufficient
    (bal_ct bal_nonce : Nat) (batch_cts : Fin 6 → Nat × Nat) (batch_nonce : Nat)
    (user : UserProfile) (batch : BatchAccumulator) :
    accumulate_order_callback false bal_ct bal_nonce batch_cts batch_nonce
        user batch
      = (({ user with pending_order := none }, batch),
         some ErrorCode.InsufficientBalance)
    ∧ ({ user with pending_order := none } : UserProfile).pending_order = none
    ∧ (∀ a, ({ user with pending_order := none } : UserProfile).get_credit a
          = user.get_credit a)
    ∧ (∀ a, ({ user with pending_order := none } : UserProfile).get_nonce a
          = user.get_nonce a)
    ∧ ({ user with pending_order := none } : UserProfile).order_count
        = user.order_count := by
  refine ⟨rfl, rfl, fun a => ?_, fun a => ?_, rfl⟩
  · rcases a with _ | _ | _ | _ | a <;> rfl
  · rcases a with _ | _ | _ | _ | a <;> rfl

/-- C10: for every asset id above 3 the `UserProfile` accessors neither fail
nor panic but fall back to the USDC slot, so a callback running with a
corrupted `pending_asset_id > 3` reads and overwrites the user's USDC balance
ciphertext and nonce. -/
theorem asset_fallback_spec (u : UserProfile) (asset_id v n : Nat)
    (h : 3 < asset_id) :
    u.get_credit asset_id = u.usdc_credit
    ∧ u.set_credit asset_id v = { u with usdc_credit := v }
    ∧ u.get_nonce asset_id = u.usdc_nonce
    ∧ u.set_nonce asset_id n = { u with usdc_nonce := n }
    ∧ (∀ ct nonce vault recipient,
        u.pending_asset_id = asset_id →
        u.pending_withdrawal_amount ≤ vault →
        recipient + u.pending_withdrawal_amount < u64Mod →
        (sub_balance_callback true ct nonce u vault recipient).1.1.usdc_credit
            = ct
        ∧ (sub_balance_callback true ct nonce u vault
            recipient).1.1.usdc_nonce = nonce) := by
  rcases asset_id with _ | _ | _ | _ | a
  · omega
  · omega
  · omega
  · omega
  refine ⟨rfl, rfl, rfl, rfl, ?_⟩
  intro ct nonce vault recipient hpa hv hr
  have hsp : splTransfer vault recipient u.pending_withdrawal_amount
      = some (vault - u.pending_withdrawal_amount,
              recipient + u.pending_withdrawal_amount) := by
    unfold splTransfer
    rw [if_pos ⟨hv, hr⟩]
  have hred : sub_balance_callback true ct nonce u vault recipient
      = (({ (u.set_credit u.pending_asset_id ct).set_nonce
              u.pending_asset_id nonce
            with pending_withdrawal_amount := 0 },
          vault - u.pending_withdrawal_amount,
          recipient + u.pending_withdrawal_amount), none) := by
    simp only [sub_balance_callback, hsp]
    rw [if_neg (not_not_intro trivial)]
  rw [hred, hpa]
  exact ⟨rfl, rfl⟩

/-- C10 witness: a profile with corrupted `pending_asset_id = 7` — the
accessor reads the USDC ciphertext, and a solvent withdraw callback for that
profile overwrites the USDC ciphertext with the MPC output. -/
theorem asset_fallback_spec_witness :
    (⟨10, 11, 12, 13, none, 7, 5, 20, 21, 22, 23, 0⟩ : UserProfile).get_credit 7
        = 10
    ∧ (sub_balance_callback true 42 43
        ⟨10, 11, 12, 13, none, 7, 5, 20, 21, 22, 23, 0⟩ 100 50).1.1.usdc_credit
        = 42 :=
  ⟨(asset_fallback_spec ⟨10, 11, 12, 13, none, 7, 5, 20, 21, 22, 23, 0⟩ 7 99 88
      (by decide)).1,
   ((asset_fallback_spec ⟨10, 11, 12, 13, none, 7, 5, 20, 21, 22, 23, 0⟩ 7 99 88
      (by decide)).2.2.2.2 42 43 100 50 (by decide) (by decide) (by decide)).1⟩

/-- C2 counterexample: a `reveal_batch_callback` on an accumulator with
`order_count = 0` and all-zero revealed totals still writes the batch log
(batch id 1, executed timestamp installed), although neither the order-count
threshold nor the two-active-pairs threshold holds: no admission criterion is
checked at execution time. -/
theorem batch_admission_cex :
    (reveal_batch_callback (fun _ => (0, 0)) 0
        ⟨0, fun _ => PairResult.zero, 0, false⟩
        ⟨1, 0, fun _ => (0, 0), 0⟩).1.batch_id = 1
    ∧ (reveal_batch_callback (fun _ => (0, 0)) 0
        ⟨0, fun _ => PairResult.zero, 0, false⟩
        ⟨1, 0, fun _ => (0, 0), 0⟩).1.executed_at = 0
    ∧ ¬ (8 ≤ (⟨1, 0, fun _ => (0, 0), 0⟩ : BatchAccumulator).order_count
         ∧ 2 ≤ activePairsTotals fun _ => (0, 0)) := by
  refine ⟨rfl, rfl, fun h => absurd h.1 (by decide)⟩

/-- C2 amended: the `reveal_batch_callback` writes BatchLog[b] unconditionally
— for every accumulator state (any `order_count`, including 0) and any
revealed totals it installs the netted results row for each pair, stamps the
log with the accumulator's batch id and the clock, and resets the accumulator
(batch id incremented, `order_count` zeroed); the admission criteria
(order_count ≥ 8 and ≥ 2 active pairs) are only computed inside
`accumulate_order` as the `batch_ready` flag, which gates nothing but the
`BatchReadyEvent` emission. -/
theorem reveal_batch_callback_spec (totals : Fin 6 → Nat × Nat) (now : Int)
    (log : BatchLog) (batch : BatchAccumulator) :
    (reveal_batch_callback totals now log batch).1.batch_id = batch.batch_id
    ∧ (∀ p, (reveal_batch_callback totals now log batch).1.results p
        = netPair (p : Nat) (totals p).1 (totals p).2)
    ∧ (reveal_batch_callback totals now log batch).1.executed_at = now
    ∧ (reveal_batch_callback totals now log batch).1.swaps_executed
        = log.swaps_executed
    ∧ (reveal_batch_callback totals now log batch).2.batch_id
        = (batch.batch_id + 1) % u64Mod
    ∧ (reveal_batch_callback totals now log batch).2.order_count = 0 :=
  ⟨rfl, fun _ => rfl, rfl, rfl, rfl, rfl⟩

/-- C8: once `swaps_executed` is latched, a repeated `execute_swaps` call for
the same batch id is rejected with `SwapsAlreadyExecuted`, performing no
transfer and no state change; a first successful call applies exactly the
listed per-pair delta transfers and flips the latch; and for every active pair
and each side, the `delta = final_pool − total_in` movement (reserve→vault
when positive, vault→reserve when negative) is among the transfers the
handler issues. -/
theorem execute_swaps_spec (batch_id : Nat) (log : BatchLog) (book : TokenBook) :
    (log.batch_id = batch_id → log.swaps_executed = true →
      execute_swaps batch_id log book
        = ((log, book), some ErrorCode.SwapsAlreadyExecuted))
    ∧ (∀ log' book', log.swaps_executed = false →
        execute_swaps batch_id log book = ((log', book'), none) →
        log'.swaps_executed = true
        ∧ log'.batch_id = log.batch_id
        ∧ log'.results = log.results
        ∧ book' = (applyMoves book (transfersFor log.results)).1
        ∧ (applyMoves book (transfersFor log.results)).2 = none)
    ∧ (∀ p : Fin 6,
        ¬ ((log.results p).total_a_in = 0 ∧ (log.results p).total_b_in = 0) →
        (0 < deltaA (log.results p) →
          (⟨(get_pair_tokens (p : Nat)).1, (deltaA (log.results p)).toNat,
              true⟩ : TokenMove) ∈ transfersFor log.results)
        ∧ (deltaA (log.results p) < 0 →
          (⟨(get_pair_tokens (p : Nat)).1, (-(deltaA (log.results p))).toNat,
              false⟩ : TokenMove) ∈ transfersFor log.results)
        ∧ (0 < deltaB (log.results p) →
          (⟨(get_pair_tokens (p : Nat)).2, (deltaB (log.results p)).toNat,
              true⟩ : TokenMove) ∈ transfersFor log.results)
        ∧ (deltaB (log.results p) < 0 →
          (⟨(get_pair_tokens (p : Nat)).2, (-(deltaB (log.results p))).toNat,
              false⟩ : TokenMove) ∈ transfersFor log.results)) := by
  refine ⟨?_, ?_, ?_⟩
  · intro h1 h2
    unfold execute_swaps
    rw [if_neg (not_not_intro h1), if_pos h2]
  · intro log' book' h1 h2
    by_cases hb : log.batch_id = batch_id
    · rcases hm : applyMoves book (transfersFor log.results) with ⟨book'', r⟩
      rcases r with _ | e
      · have hstep : execute_swaps batch_id log book
            = (({ log with swaps_executed := true }, book''), none) := by
          unfold execute_swaps
          rw [if_neg (not_not_intro hb), if_neg (by simp [h1]), hm]
        rw [hstep] at h2
        have h3 := congrArg (fun x => x.1.1) h2
        have h4 := congrArg (fun x => x.1.2) h2
        simp only at h3 h4
        refine ⟨?_, ?_, ?_, ?_, ?_⟩
        · rw [← h3]
        · rw [← h3]
        · rw [← h3]
        · rw [← h4]
        · rfl
      · have hstep : execute_swaps batch_id log book
            = ((log, book''), some e) := by
          unfold execute_swaps
          rw [if_neg (not_not_intro hb), if_neg (by simp [h1]), hm]
        rw [hstep] at h2
        exact absurd (congrArg Prod.snd h2) (by simp)
    · have hstep : execute_swaps batch_id log book
          = ((log, book), some ErrorCode.InvalidBatchId) := by
        unfold execute_swaps
        rw [if_pos hb]
      rw [hstep] at h2
      exact absurd (congrArg Prod.snd h2) (by simp)
  · intro p hp
    have key : ∀ x : TokenMove,
        x ∈ (if (log.results p).total_a_in = 0 ∧ (log.results p).total_b_in = 0
             then ([] : List TokenMove)
             else
               (if 0 < deltaA (log.results p) then
                  [⟨(get_pair_tokens (p : Nat)).1,
                    (deltaA (log.results p)).toNat, true⟩]
                else if deltaA (log.results p) < 0 then
                  [⟨(get_pair_tokens (p : Nat)).1,
                    (-(deltaA (log.results p))).toNat, false⟩]
                else [])
               ++
               (if 0 < deltaB (log.results p) then
                  [⟨(get_pair_tokens (p : Nat)).2,
                    (deltaB (log.results p)).toNat, true⟩]
                else if deltaB (log.results p) < 0 then
                  [⟨(get_pair_tokens (p : Nat)).2,
                    (-(deltaB (log.results p))).toNat, false⟩]
                else [])) →
        x ∈ transfersFor log.results := by
      intro x hx
      unfold transfersFor
      exact List.mem_flatMap.mpr ⟨p, List.mem_finRange p, hx⟩
    refine ⟨?_, ?_, ?_, ?_⟩
    · intro hd
      apply key
      rw [if_neg hp]
      refine List.mem_append.mpr (Or.inl ?_)
      rw [if_pos hd]
      exact List.mem_singleton_self _
    · intro hd
      apply key
      rw [if_neg hp]
      refine List.mem_append.mpr (Or.inl ?_)
      rw [if_neg (not_lt.mpr (le_of_lt hd)), if_pos hd]
      exact List.mem_singleton_self _
    · intro hd
      apply key
      rw [if_neg hp]
      refine List.mem_append.mpr (Or.inr ?_)
      rw [if_pos hd]
      exact List.mem_singleton_self _
    · intro hd
      apply key
      rw [if_neg hp]
      refine List.mem_append.mpr (Or.inr ?_)
      rw [if_neg (not_lt.mpr (le_of_lt hd)), if_pos hd]
      exact List.mem_singleton_self _

/-- C8 witness: on a batch-1 log with no active pair the first call just flips
the latch; a second call on the latched log is rejected; and on a log whose
pair-0 row is (100, 50, 90, 60), the A-side deficit of 10 yields a
vault→reserve move of 10 TSLA among the issued transfers. -/
theorem execute_swaps_spec_witness :
    (execute_swaps 1 ⟨1, fun _ => PairResult.zero, 0, true⟩
        ⟨100, 100, 100, 100, 100, 100, 100, 100⟩
      = ((⟨1, fun _ => PairResult.zero, 0, true⟩,
          ⟨100, 100, 100, 100, 100, 100, 100, 100⟩),
         some ErrorCode.SwapsAlreadyExecuted))
    ∧ ((⟨1, fun _ => PairResult.zero, 0, true⟩ : BatchLog).swaps_executed = true)
    ∧ (⟨1, 10, false⟩ : TokenMove)
        ∈ transfersFor fun _ => (⟨100, 50, 90, 60⟩ : PairResult) :=
  ⟨(execute_swaps_spec 1 ⟨1, fun _ => PairResult.zero, 0, true⟩
      ⟨100, 100, 100, 100, 100, 100, 100, 100⟩).1 rfl rfl,
   rfl,
   ((execute_swaps_spec 1 ⟨1, fun _ => (⟨100, 50, 90, 60⟩ : PairResult), 0, false⟩
      ⟨100, 100, 100, 100, 100, 100, 100, 100⟩).2.2 0 (by decide)).2.1
     (by decide)⟩

end Shuffle
